import Mathlib

/-!
# Verification of the nocodevibe agent server

A shallow embedding of the server-side core of the repository: the provider
resolver (`src/apps/server/src/agent/providers.ts`), the tool registry
(`src/apps/server/src/tools/index.ts`), the plan tools
(`src/apps/server/src/tools/plan.ts`), the edit tool (`createEditTool`),
the message store (`src/apps/server/src/db/message.ts`), the chat route
(`chat.post`) and the agent loop (`runAgent` in
`src/apps/server/src/agent/agent.ts`).

Conventions of the embedding:
* File I/O is modelled as a map `String → Option String` from paths to file
  contents (`readFile` with a `catch` returning `none`, `writeFile` as a
  pointwise update).
* The database of messages is a list in insertion order (Prisma's
  `orderBy createdAt asc` over rows created sequentially); generated row ids
  are modelled as `"m" ++ index`.
* JavaScript strings are Lean `String`s; JS `unknown` tool outputs are a sum
  distinguishing string values from non-string values, with the strings that
  `JSON.parse` maps to an object with a truthy `__mode_switch` field
  represented structurally (JSON.stringify/JSON.parse round-trip on the
  payload produced by the plan-exit tool).
* The model stream consumed by the agent loop (`result.fullStream`) is a list
  of parts, optionally followed by a thrown exception; the abort signal is an
  optional index: `some k` means `signal.aborted` becomes true at the k-th
  loop-head check (after k parts have been consumed) and stays true.
-/

/-- Mode of a run: `agent` or `plan` (agent.ts `mode?: "agent" | "plan"`). -/
inductive Mode
  | agent
  | plan
deriving DecidableEq, Repr

/-- A stored provider credential row as read by `provider.get(providerId)`;
only the `apiKey` field is consulted by `resolveProvider`. -/
structure ProviderRow where
  apiKey : String
deriving DecidableEq, Repr

/-- Result of `resolveProvider`: either a resolved model handle
(`ResolvedProvider`, carrying providerId and modelId; the SDK model object
itself is external) or a `ResolveError` with the error message. -/
inductive ResolveResult
  | resolved (providerId modelId : String)
  | resolveError (error : String)
deriving DecidableEq, Repr

/-- `resolveProvider(providerId, modelId)` from
`src/apps/server/src/agent/providers.ts`: looks up the credential row,
fails when the row is absent or the apiKey is falsy (empty), then switches
on the provider id (`anthropic` / `openai` / `google`), failing on any
other id. The credential store is passed as an explicit map. -/
def resolveProvider (store : String → Option ProviderRow)
    (providerId modelId : String) : ResolveResult :=
  match store providerId with
  | none =>
    ResolveResult.resolveError
      ("Provider '" ++ providerId ++ "' not configured. Go to Settings.")
  | some providerRow =>
    if providerRow.apiKey = "" then
      ResolveResult.resolveError
        ("API key not configured for " ++ providerId ++ ". Go to Settings.")
    else
      match providerId with
      | "anthropic" => ResolveResult.resolved providerId modelId
      | "openai" => ResolveResult.resolved providerId modelId
      | "google" => ResolveResult.resolved providerId modelId
      | _ =>
        ResolveResult.resolveError ("Unsupported provider: " ++ providerId)

/-- `isResolveError` from providers.ts (the `"error" in result` type guard). -/
def isResolveError : ResolveResult → Bool
  | ResolveResult.resolveError _ => true
  | ResolveResult.resolved _ _ => false

/-- `needle` occurs somewhere inside `hay` ("the message mentions ..."). -/
def mentions (needle hay : String) : Prop :=
  ∃ pre post : String, hay = pre ++ needle ++ post

theorem strAppendAssoc (a b c : String) : a ++ b ++ c = a ++ (b ++ c) := by
  apply String.ext
  simp [String.data_append, List.append_assoc]

theorem mentionsOfMiddle (pre mid post : String) :
    mentions mid (pre ++ mid ++ post) := ⟨pre, post, rfl⟩

/-- The `images` column of a message row (`String | null` holding JSON).
A stored column value is represented by what `JSON.parse` does to it:
either it parses to a list of strings, or parsing throws / yields a
non-array (`malformed`). -/
inductive ImagesCol
  | jsonStrings (imgs : List String)
  | malformed
deriving DecidableEq, Repr

/-- A persisted message row (Prisma `Message`): id, owning session, role,
text content, optional images column. -/
structure Msg where
  id : String
  sessionId : String
  role : String
  content : String
  images : Option ImagesCol
deriving DecidableEq, Repr

/-- Fresh row id for a newly created message (Prisma generates an opaque
unique id; modelled as "m" followed by the table size). -/
def freshId (db : List Msg) : String := "m" ++ toString db.length

/-- `message.append(sessionId, role, content)` from
`src/apps/server/src/db/message.ts`: `prisma.message.create({data:
{sessionId, role, content}})`. Note the signature stores no images.
Returns the created row and the updated table. -/
def message.append (db : List Msg) (sessionId role content : String) :
    Msg × List Msg :=
  let m : Msg :=
    { id := freshId db, sessionId := sessionId, role := role,
      content := content, images := none }
  (m, db ++ [m])

/-- `message.listBySession(sessionId)`: all rows of the session ordered by
creation time ascending (the table list is in insertion order). -/
def message.listBySession (db : List Msg) (sessionId : String) : List Msg :=
  db.filter (fun m => m.sessionId = sessionId)

/-- One part of a multi-part model message
(`{type:"text",text} | {type:"image",image}` in agent.ts). -/
inductive ModelMsgPart
  | text (t : String)
  | image (dataUrl : String)
deriving DecidableEq, Repr

/-- An in-memory conversation turn handed to the model: either
`TextContent` (role + string content) or `MultiPartContent`
(role "user", list of parts). -/
inductive ModelMsg
  | textMsg (role content : String)
  | multiPart (content : List ModelMsgPart)
deriving DecidableEq, Repr

/-- The history mapping in `runAgent` (agent.ts lines 185–204): a stored
user row with a truthy images column that parses to a non-empty string
array becomes a multi-part turn (image parts first, then one text part);
every other row — including parse failures — becomes a plain text turn. -/
def buildHistoryMessage (m : Msg) : ModelMsg :=
  if m.role = "user" then
    match m.images with
    | some (ImagesCol.jsonStrings imgs) =>
      if imgs.length > 0 then
        ModelMsg.multiPart
          (imgs.map ModelMsgPart.image ++ [ModelMsgPart.text m.content])
      else ModelMsg.textMsg m.role m.content
    | some ImagesCol.malformed => ModelMsg.textMsg m.role m.content
    | none => ModelMsg.textMsg m.role m.content
  else ModelMsg.textMsg m.role m.content

/-- The current user turn appended by `runAgent` (agent.ts lines 206–216):
multi-part when images are present and non-empty, else a plain text turn. -/
def currentTurn (prompt : String) (images : Option (List String)) : ModelMsg :=
  match images with
  | some imgs =>
    if imgs.length > 0 then
      ModelMsg.multiPart
        (imgs.map ModelMsgPart.image ++ [ModelMsgPart.text prompt])
    else ModelMsg.textMsg "user" prompt
  | none => ModelMsg.textMsg "user" prompt

/-- The full `messages` array built by `runAgent`: mapped history followed
by the current turn. -/
def buildMessages (history : List Msg) (prompt : String)
    (images : Option (List String)) : List ModelMsg :=
  history.map buildHistoryMessage ++ [currentTurn prompt images]

/-- The user-message persistence step of `chat.post`
(`await message.append(sessionId, "user", prompt)`): the images of the
request body are forwarded only to `runAgent`, never to `message.append`,
so the stored row has no images column. -/
def chatPostSaveUser (db : List Msg) (sessionId prompt : String)
    (_images : Option (List String)) : List Msg :=
  (message.append db sessionId "user" prompt).2

/-- A tool definition in the registry, tagged by which factory built it and
with what arguments (the executable behaviour of the tools relevant to the
claims is embedded separately). -/
inductive ToolSpec
  | read (projectDir : String)
  | write (projectDir : String)
  | edit (projectDir : String)
  | glob (projectDir : String)
  | grep (projectDir : String)
  | webfetch
  | websearch
  | codesearch
  | imagefetch (supportsVision : Bool)
  | question
  | plan_write (planPath : String)
  | plan_exit (planPath : String)
deriving DecidableEq, Repr

/-- `createTools(projectDir, mode = "agent", planPath?, supportsVision = true)`
from `src/apps/server/src/tools/index.ts`: the base tools are always
present; the branch `mode === "plan" && planPath` (JS string truthiness:
`undefined` and `""` are falsy) adds question/plan_write/plan_exit, and
every other combination adds write/edit. Represented as the list of
(name, definition) entries of the returned object, in source order. -/
def createTools (projectDir : String) (mode : Mode)
    (planPath : Option String) (supportsVision : Bool) :
    List (String × ToolSpec) :=
  let base : List (String × ToolSpec) :=
    [("read", ToolSpec.read projectDir),
     ("glob", ToolSpec.glob projectDir),
     ("grep", ToolSpec.grep projectDir),
     ("webfetch", ToolSpec.webfetch),
     ("websearch", ToolSpec.websearch),
     ("codesearch", ToolSpec.codesearch),
     ("imagefetch", ToolSpec.imagefetch supportsVision)]
  match mode, planPath with
  | Mode.plan, some p =>
    if p ≠ "" then
      base ++
        [("question", ToolSpec.question),
         ("plan_write", ToolSpec.plan_write p),
         ("plan_exit", ToolSpec.plan_exit p)]
    else
      base ++
        [("write", ToolSpec.write projectDir),
         ("edit", ToolSpec.edit projectDir)]
  | _, _ =>
    base ++
      [("write", ToolSpec.write projectDir),
       ("edit", ToolSpec.edit projectDir)]

/-- A tool name is present in a registry. -/
def hasTool (name : String) (ts : List (String × ToolSpec)) : Bool :=
  ts.any (fun t => t.1 == name)

/-- `getPlanPath(_projectDir, sessionId)` from plan.ts:
`join(homedir(), ".coodeen", "plans", sessionId + ".md")`. The home
directory is passed explicitly. -/
def getPlanPath (home : String) (_projectDir sessionId : String) : String :=
  home ++ "/.coodeen/plans/" ++ sessionId ++ ".md"

/-- The execute function of `createPlanWriteTool(planPath)`:
`writeFile(planPath, content, "utf-8")` (after mkdir) and the return
message. The file system is a path-to-content map. -/
def planWriteExecute (fs : String → Option String)
    (planPath content : String) : (String → Option String) × String :=
  (fun p => if p = planPath then some content else fs p,
   "Plan written to " ++ planPath)

/-- `readPlan(planPath)` from plan.ts: `readFile(planPath, "utf-8")` with a
catch returning `null`. -/
def readPlan (fs : String → Option String) (planPath : String) :
    Option String :=
  fs planPath

/-- Number of non-overlapping occurrences of a non-empty separator in a
character list, scanning left to right — exactly the matches that
`content.split(old_string)` cuts at, so that
`content.split(sep).length - 1 = countOcc sep content` for non-empty sep. -/
def countOccAux (sep : List Char) : Nat → List Char → Nat
  | 0, _ => 0
  | _ + 1, [] => 0
  | fuel + 1, c :: rest =>
    if sep ≠ [] ∧ sep.isPrefixOf (c :: rest) then
      1 + countOccAux sep fuel (rest.drop (sep.length - 1))
    else countOccAux sep fuel rest

/-- Entry point of `countOccAux`: a fuel of `content.length` always
suffices because every step consumes at least one character. -/
def countOcc (sep content : List Char) : Nat :=
  countOccAux sep content.length content

/-- `content.split(old_string).length - 1` as computed by the edit tool
(a JS number, so it can be `-1`: `"".split("")` is `[]`). For an empty
separator, `split` returns one single-character string per character. -/
def occurrencesOf (old content : List Char) : Int :=
  if old = [] then (content.length : Int) - 1
  else (countOcc old content : Int)

/-- JS `String.prototype.indexOf` restricted to what `replace` needs: the
first index at which `pat` occurs (`some 0` for the empty pattern). -/
def findIdx? (pat : List Char) : List Char → Option Nat
  | [] => if pat.isPrefixOf [] then some 0 else none
  | c :: t =>
    if pat.isPrefixOf (c :: t) then some 0
    else (findIdx? pat t).map (· + 1)

/-- ECMAScript `GetSubstitution` for a string search value (no capture
groups): in the replacement string, `$$` is a literal dollar, `$&` is the
matched substring, a dollar before char 96 (backquote) is the portion
before the match, a dollar before char 39 (single quote) is the portion
after the match, and any other `$`-sequence is literal. -/
def getSubstitution (matched pre post : List Char) : List Char → List Char
  | [] => []
  | '$' :: c :: rest =>
    if c = '$' then '$' :: getSubstitution matched pre post rest
    else if c = '&' then matched ++ getSubstitution matched pre post rest
    else if c = Char.ofNat 96 then pre ++ getSubstitution matched pre post rest
    else if c = Char.ofNat 39 then post ++ getSubstitution matched pre post rest
    else '$' :: c :: getSubstitution matched pre post rest
  | c :: rest => c :: getSubstitution matched pre post rest

/-- JS `content.replace(old, new)` with string arguments: replace the first
occurrence of `old`, feeding the replacement string through
`GetSubstitution`; no occurrence leaves the string unchanged. -/
def jsReplace (content old repl : List Char) : List Char :=
  match findIdx? old content with
  | none => content
  | some i =>
    let pre := content.take i
    let post := content.drop (i + old.length)
    pre ++ getSubstitution old pre post repl ++ post

/-- Outcome of the edit tool's execute: success with the updated file
content and return message, or one of the two distinct thrown errors. -/
inductive EditResult
  | edited (newContent message : String)
  | notFound (message : String)
  | notUnique (message : String)
deriving DecidableEq, Repr

/-- The execute function of `createEditTool(projectDir)`
(src/unnamed/part_021): count occurrences via
`content.split(old_string).length - 1`, throw the not-found error at 0,
the not-unique error above 1, otherwise write
`content.replace(old_string, new_string)`. The file read/write is
abstracted to the content in / content out. -/
def editExecute (content file_path old_string new_string : String) :
    EditResult :=
  let occurrences := occurrencesOf old_string.data content.data
  if occurrences = 0 then
    EditResult.notFound
      ("old_string not found in " ++ file_path ++
       ". Make sure it matches the file content exactly, including whitespace and indentation.")
  else if occurrences > 1 then
    EditResult.notUnique
      ("old_string found " ++ toString occurrences ++ " times in " ++
       file_path ++ ". It must be unique. Provide more surrounding context to make it unique.")
  else
    EditResult.edited
      (String.mk (jsReplace content.data old_string.data new_string.data))
      ("Edited " ++ file_path ++ ": replaced 1 occurrence")

/-- The `unknown` output of a tool as observed on a `tool-result` stream
part: a plain string, a string that `JSON.parse` maps to an object with a
truthy `__mode_switch` field (represented structurally, with its `mode`,
`planPath` and `planContent` fields), or a non-string value. -/
inductive ToolOutputVal
  | str (s : String)
  | modeSwitchJson (mode planPath planContent : String)
  | nonString
deriving DecidableEq, Repr

/-- The execute function of `createPlanExitTool(planPath)` (plan.ts):
read the plan file (a failed read leaves the accumulator empty), then
return the JSON sentinel `{__mode_switch:true, mode:"agent", planPath,
planContent: planContent || "(no plan file written)"}` (JS `||`: the empty
string is falsy). -/
def planExitExecute (fs : String → Option String) (planPath : String) :
    ToolOutputVal :=
  let planContent := match fs planPath with
    | some s => s
    | none => ""
  ToolOutputVal.modeSwitchJson "agent" planPath
    (if planContent = "" then "(no plan file written)" else planContent)

/-- One part of `result.fullStream` as classified by the loop's switch:
`text-delta`, `tool-call` (with toolCallId), `tool-result`, `error`, and
everything else (step-start, step-finish, finish, …). -/
inductive StreamPart
  | textDelta (text : String)
  | toolCall (toolName input toolCallId : String)
  | toolResult (toolName : String) (output : ToolOutputVal)
  | errorPart (message : String)
  | otherPart
deriving DecidableEq, Repr

/-- The `AgentEvent` union streamed to the client (agent.ts lines 136–143). -/
inductive AgentEvent
  | token (content : String)
  | tool_call (name input toolCallId : String)
  | tool_result (name : String) (output : ToolOutputVal)
  | mode_switch (mode planPath planContent : String)
  | done (messageId : String)
  | error (message : String)
deriving DecidableEq, Repr

/-- How the loop over `result.fullStream` ended: the stream was exhausted,
the abort check broke out, or an `error` part made the generator return. -/
inductive LoopExit
  | completed
  | abortedBreak
  | errorReturn
deriving DecidableEq, Repr

/-- The abort signal state at a loop-head check: `some 0` means
`signal.aborted` is already true (the countdown reached the firing
point). -/
def isAbortedNow : Option Nat → Bool
  | some 0 => true
  | _ => false

/-- Advance the abort countdown by one consumed part; an already-fired
signal stays fired. -/
def decAbort : Option Nat → Option Nat
  | none => none
  | some 0 => some 0
  | some (k + 1) => some k

/-- The derived mode-switch emission after a `tool-result` part (agent.ts
lines 308–321): when the tool name is `plan_exit` and the output is a
string that parses to an object with truthy `__mode_switch`, a
`mode_switch` event with the parsed fields follows the `tool_result`
event; otherwise nothing. -/
def modeSwitchEvents (toolName : String) (output : ToolOutputVal) :
    List AgentEvent :=
  if toolName = "plan_exit" then
    match output with
    | ToolOutputVal.modeSwitchJson mode planPath planContent =>
      [AgentEvent.mode_switch mode planPath planContent]
    | _ => []
  else []

/-- The `for await (const part of result.fullStream)` loop of `runAgent`
(agent.ts lines 283–334): at each iteration first check `signal.aborted`
(break), then classify the part; `text-delta` appends to `fullContent` and
emits `token`, `tool-call` emits `tool_call`, `tool-result` emits
`tool_result` plus the derived `mode_switch`, `error` emits `error` and
returns from the generator, other parts are ignored. Returns the emitted
events, the accumulated `fullContent`, and how the loop ended. -/
def consumeParts : List StreamPart → Option Nat →
    List AgentEvent × String × LoopExit
  | [], _ => ([], "", LoopExit.completed)
  | p :: rest, ab =>
    if isAbortedNow ab then ([], "", LoopExit.abortedBreak)
    else
      match p with
      | StreamPart.textDelta t =>
        let r := consumeParts rest (decAbort ab)
        (AgentEvent.token t :: r.1, t ++ r.2.1, r.2.2)
      | StreamPart.toolCall n inp id =>
        let r := consumeParts rest (decAbort ab)
        (AgentEvent.tool_call n inp id :: r.1, r.2.1, r.2.2)
      | StreamPart.toolResult n out =>
        let r := consumeParts rest (decAbort ab)
        (AgentEvent.tool_result n out :: (modeSwitchEvents n out ++ r.1),
         r.2.1, r.2.2)
      | StreamPart.errorPart m =>
        ([AgentEvent.error m], "", LoopExit.errorReturn)
      | StreamPart.otherPart => consumeParts rest (decAbort ab)

/-- Step 6 of `runAgent` (agent.ts lines 336–342): when `fullContent` is
non-empty, persist it as an assistant message and emit `done` with the new
row's id, otherwise emit `done` with the empty id. -/
def finalizeRun (evs : List AgentEvent) (fullContent : String)
    (db : List Msg) (sessionId : String) : List AgentEvent × List Msg :=
  if fullContent.length > 0 then
    let r := message.append db sessionId "assistant" fullContent
    (evs ++ [AgentEvent.done r.1.id], r.2)
  else (evs ++ [AgentEvent.done ""], db)

/-- Whether `signal.aborted` holds once the whole stream has been pulled
(the state the `catch` block observes when the stream ends by throwing). -/
def abortedAtEnd (abortAt : Option Nat) (partsConsumed : Nat) : Bool :=
  match abortAt with
  | some k => decide (k ≤ partsConsumed)
  | none => false

/-- The environment a run executes in: credential store, message table,
file system, home directory, the stream the model produces (its parts and
an optional exception thrown after the last part), the abort instant, and
the `modelSupportsImage` answer. -/
structure RunEnv where
  providers : String → Option ProviderRow
  db : List Msg
  fs : String → Option String
  home : String
  parts : List StreamPart
  streamExc : Option String
  abortAt : Option Nat
  supportsVision : Bool

/-- The `RunAgentInput` record of agent.ts (the abort signal lives in the
environment). -/
structure RunInput where
  sessionId : String
  prompt : String
  providerId : String
  modelId : String
  projectDir : String
  images : Option (List String)
  mode : Mode

/-- `runAgent` (agent.ts lines 160–351): resolve the provider (a resolve
error yields exactly one `error` event and ends the run), build the
conversation and the tool registry, then consume the stream; an `error`
part ends the generator with no finalization; otherwise, when the loop
ends — by exhausting the stream with no exception, or by the abort-check
`break` — control falls through to step 6 (`finalizeRun`); an exception
after the stream is consumed reaches the `catch`, which is silent when the
signal is aborted and otherwise emits a final `error` event. Returns the
emitted events and the message table after the run. -/
def runAgent (env : RunEnv) (inp : RunInput) : List AgentEvent × List Msg :=
  match resolveProvider env.providers inp.providerId inp.modelId with
  | ResolveResult.resolveError e => ([AgentEvent.error e], env.db)
  | ResolveResult.resolved _ _ =>
    let history := message.listBySession env.db inp.sessionId
    let _messages := buildMessages history inp.prompt inp.images
    let planPath := getPlanPath env.home inp.projectDir inp.sessionId
    let _tools :=
      createTools inp.projectDir inp.mode (some planPath) env.supportsVision
    let r := consumeParts env.parts env.abortAt
    match r.2.2 with
    | LoopExit.errorReturn => (r.1, env.db)
    | LoopExit.abortedBreak => finalizeRun r.1 r.2.1 env.db inp.sessionId
    | LoopExit.completed =>
      match env.streamExc with
      | none => finalizeRun r.1 r.2.1 env.db inp.sessionId
      | some e =>
        if abortedAtEnd env.abortAt env.parts.length then (r.1, env.db)
        else (r.1 ++ [AgentEvent.error e], env.db)

/-- Event classifier: is this an `error` event? -/
def isErrorEv : AgentEvent → Bool
  | AgentEvent.error _ => true
  | _ => false

/-- Event classifier: is this a `done` event? -/
def isDoneEv : AgentEvent → Bool
  | AgentEvent.done _ => true
  | _ => false

/-- Part classifier: is this a `text-delta` part? -/
def isTextDelta : StreamPart → Bool
  | StreamPart.textDelta _ => true
  | _ => false

/-- Part classifier: is this an `error` part? -/
def isErrorPart : StreamPart → Bool
  | StreamPart.errorPart _ => true
  | _ => false

/-- The stream contains no model-reported error part. -/
def noErrorPart (ps : List StreamPart) : Bool :=
  ps.all (fun p => !isErrorPart p)

/-- The model produced zero text parts. -/
def noTextPart (ps : List StreamPart) : Bool :=
  ps.all (fun p => !isTextDelta p)

/-- In-order concatenation of the contents of all `token` events of an
event sequence (the spec's "accumulated text buffer"). -/
def tokenConcat : List AgentEvent → String
  | [] => ""
  | AgentEvent.token c :: rest => c ++ tokenConcat rest
  | AgentEvent.tool_call _ _ _ :: rest => tokenConcat rest
  | AgentEvent.tool_result _ _ :: rest => tokenConcat rest
  | AgentEvent.mode_switch _ _ _ :: rest => tokenConcat rest
  | AgentEvent.done _ :: rest => tokenConcat rest
  | AgentEvent.error _ :: rest => tokenConcat rest

/-- Every `error` event of the sequence is its last element. -/
def errorsLastOk : List AgentEvent → Bool
  | [] => true
  | e :: rest => if isErrorEv e then rest.isEmpty else errorsLastOk rest

/-- The sequence contains a `done` event. -/
def hasDone (evs : List AgentEvent) : Bool := evs.any isDoneEv

/-- The events the loop emits for one processed part. -/
def partEvents : StreamPart → List AgentEvent
  | StreamPart.textDelta t => [AgentEvent.token t]
  | StreamPart.toolCall n inp id => [AgentEvent.tool_call n inp id]
  | StreamPart.toolResult n out =>
    AgentEvent.tool_result n out :: modeSwitchEvents n out
  | StreamPart.errorPart m => [AgentEvent.error m]
  | StreamPart.otherPart => []

/-- The text a part contributes to `fullContent`. -/
def partText : StreamPart → String
  | StreamPart.textDelta t => t
  | _ => ""

/-- Concatenated per-part events of a stream prefix. -/
def flatEvents : List StreamPart → List AgentEvent
  | [] => []
  | p :: rest => partEvents p ++ flatEvents rest

/-- Concatenated per-part text of a stream prefix. -/
def concatText : List StreamPart → String
  | [] => ""
  | p :: rest => partText p ++ concatText rest

/-- The abort signal has not yet fired at the i-th loop-head check. -/
def abortAfter (ab : Option Nat) (i : Nat) : Bool :=
  match ab with
  | none => true
  | some k => decide (i < k)

theorem strLengthPos (s : String) : 0 < s.length ↔ s ≠ "" := by
  cases s with
  | mk data =>
    simp [String.length, List.length_pos, Ne, String.ext_iff]

theorem tokenConcat_append (a b : List AgentEvent) :
    tokenConcat (a ++ b) = tokenConcat a ++ tokenConcat b := by
  induction a with
  | nil => simp [tokenConcat]
  | cons e rest ih =>
    cases e <;> simp [tokenConcat, ih, strAppendAssoc]

theorem consume_tokenConcat (ps : List StreamPart) (ab : Option Nat) :
    tokenConcat (consumeParts ps ab).1 = (consumeParts ps ab).2.1 := by
  induction ps generalizing ab with
  | nil => simp [consumeParts, tokenConcat]
  | cons p rest ih =>
    by_cases hab : isAbortedNow ab = true
    · simp [consumeParts, hab, tokenConcat]
    · cases p with
      | textDelta t =>
        simp [consumeParts, hab, tokenConcat, ih]
      | toolCall n inp id =>
        simp [consumeParts, hab, tokenConcat, ih]
      | toolResult n out =>
        simp only [consumeParts, hab, if_neg, Bool.not_eq_true]
        simp only [tokenConcat, tokenConcat_append]
        rw [show tokenConcat (modeSwitchEvents n out) = "" by
          unfold modeSwitchEvents
          split <;> [skip; rfl]
          split <;> rfl]
        simp [ih]
      | errorPart m => simp [consumeParts, hab, tokenConcat]
      | otherPart => simp [consumeParts, hab, ih]

theorem modeSwitch_no_done (n : String) (out : ToolOutputVal) :
    (modeSwitchEvents n out).filter isDoneEv = [] := by
  unfold modeSwitchEvents
  split
  · split <;> rfl
  · rfl

theorem consume_no_done (ps : List StreamPart) (ab : Option Nat) :
    (consumeParts ps ab).1.filter isDoneEv = [] := by
  induction ps generalizing ab with
  | nil => simp [consumeParts]
  | cons p rest ih =>
    by_cases hab : isAbortedNow ab = true
    · simp [consumeParts, hab]
    · cases p with
      | textDelta t => simp [consumeParts, hab, isDoneEv, ih]
      | toolCall n inp id => simp [consumeParts, hab, isDoneEv, ih]
      | toolResult n out =>
        simp [consumeParts, hab, isDoneEv, List.filter_append,
          modeSwitch_no_done, ih]
      | errorPart m => simp [consumeParts, hab, isDoneEv]
      | otherPart => simp [consumeParts, hab, ih]

theorem consume_no_text_content (ps : List StreamPart) (ab : Option Nat)
    (h : noTextPart ps = true) : (consumeParts ps ab).2.1 = "" := by
  induction ps generalizing ab with
  | nil => simp [consumeParts]
  | cons p rest ih =>
    simp only [noTextPart, List.all_cons, Bool.and_eq_true] at h
    by_cases hab : isAbortedNow ab = true
    · simp [consumeParts, hab]
    · cases p with
      | textDelta t => simp [isTextDelta] at h
      | toolCall n inp id =>
        simpa [consumeParts, hab] using ih (decAbort ab) (by
          simpa [noTextPart] using h.2)
      | toolResult n out =>
        simpa [consumeParts, hab] using ih (decAbort ab) (by
          simpa [noTextPart] using h.2)
      | errorPart m => simp [consumeParts, hab]
      | otherPart =>
        simpa [consumeParts, hab] using ih (decAbort ab) (by
          simpa [noTextPart] using h.2)

theorem modeSwitch_no_error (n : String) (out : ToolOutputVal) :
    (modeSwitchEvents n out).filter isErrorEv = [] := by
  unfold modeSwitchEvents
  split
  · split <;> rfl
  · rfl

theorem consume_no_error_of_not_errorReturn (ps : List StreamPart)
    (ab : Option Nat) (h : (consumeParts ps ab).2.2 ≠ LoopExit.errorReturn) :
    (consumeParts ps ab).1.filter isErrorEv = [] := by
  induction ps generalizing ab with
  | nil => simp [consumeParts]
  | cons p rest ih =>
    by_cases hab : isAbortedNow ab = true
    · simp [consumeParts, hab]
    · cases p with
      | textDelta t =>
        simp only [consumeParts, hab] at h ⊢
        simp only [Bool.false_eq_true, if_false] at h ⊢
        simp [isErrorEv, ih (decAbort ab) h]
      | toolCall n inp id =>
        simp only [consumeParts, hab] at h ⊢
        simp only [Bool.false_eq_true, if_false] at h ⊢
        simp [isErrorEv, ih (decAbort ab) h]
      | toolResult n out =>
        simp only [consumeParts, hab] at h ⊢
        simp only [Bool.false_eq_true, if_false] at h ⊢
        simp [isErrorEv, List.filter_append, modeSwitch_no_error,
          ih (decAbort ab) h]
      | errorPart m =>
        simp [consumeParts, hab] at h
      | otherPart =>
        simp only [consumeParts, hab] at h ⊢
        simp only [Bool.false_eq_true, if_false] at h ⊢
        exact ih (decAbort ab) h

theorem consume_errorReturn_form (ps : List StreamPart) (ab : Option Nat)
    (h : (consumeParts ps ab).2.2 = LoopExit.errorReturn) :
    ∃ pre m, (consumeParts ps ab).1 = pre ++ [AgentEvent.error m] ∧
      pre.filter isErrorEv = [] := by
  induction ps generalizing ab with
  | nil => simp [consumeParts] at h
  | cons p rest ih =>
    by_cases hab : isAbortedNow ab = true
    · simp [consumeParts, hab] at h
    · cases p with
      | textDelta t =>
        simp only [consumeParts, hab, Bool.false_eq_true, if_false] at h ⊢
        obtain ⟨pre, m, hev, hpre⟩ := ih (decAbort ab) h
        exact ⟨AgentEvent.token t :: pre, m, by simp [hev],
          by simp [isErrorEv, hpre]⟩
      | toolCall n inp id =>
        simp only [consumeParts, hab, Bool.false_eq_true, if_false] at h ⊢
        obtain ⟨pre, m, hev, hpre⟩ := ih (decAbort ab) h
        exact ⟨AgentEvent.tool_call n inp id :: pre, m, by simp [hev],
          by simp [isErrorEv, hpre]⟩
      | toolResult n out =>
        simp only [consumeParts, hab, Bool.false_eq_true, if_false] at h ⊢
        obtain ⟨pre, m, hev, hpre⟩ := ih (decAbort ab) h
        refine ⟨AgentEvent.tool_result n out :: (modeSwitchEvents n out ++ pre),
          m, by simp [hev], ?_⟩
        simp [isErrorEv, List.filter_append, modeSwitch_no_error, hpre]
      | errorPart m =>
        exact ⟨[], m, by simp [consumeParts, hab], rfl⟩
      | otherPart =>
        simp only [consumeParts, hab, Bool.false_eq_true, if_false] at h ⊢
        exact ih (decAbort ab) h

theorem errorsLastOk_of_no_errors (l : List AgentEvent)
    (h : l.filter isErrorEv = []) : errorsLastOk l = true := by
  induction l with
  | nil => rfl
  | cons e rest ih =>
    by_cases he : isErrorEv e = true
    · simp [he] at h
    · simp only [List.filter_cons, he, Bool.false_eq_true, if_false] at h
      simp [errorsLastOk, he, ih h]

theorem errorsLastOk_append_single (l : List AgentEvent) (x : AgentEvent)
    (h : l.filter isErrorEv = []) : errorsLastOk (l ++ [x]) = true := by
  induction l with
  | nil =>
    by_cases hx : isErrorEv x = true <;> simp [errorsLastOk, hx]
  | cons e rest ih =>
    by_cases he : isErrorEv e = true
    · simp [he] at h
    · simp only [List.filter_cons, he, Bool.false_eq_true, if_false] at h
      simp [errorsLastOk, he, ih h]

theorem flatEvents_no_done (ps : List StreamPart) :
    (flatEvents ps).filter isDoneEv = [] := by
  induction ps with
  | nil => rfl
  | cons p rest ih =>
    cases p with
    | toolResult n out =>
      simp [flatEvents, partEvents, List.filter_append, isDoneEv,
        modeSwitch_no_done, ih]
    | textDelta t => simp [flatEvents, partEvents, isDoneEv, ih]
    | toolCall n inp id => simp [flatEvents, partEvents, isDoneEv, ih]
    | errorPart m => simp [flatEvents, partEvents, isDoneEv, ih]
    | otherPart => simp [flatEvents, partEvents, ih]

theorem flatEvents_no_error (ps : List StreamPart)
    (h : noErrorPart ps = true) : (flatEvents ps).filter isErrorEv = [] := by
  induction ps with
  | nil => rfl
  | cons p rest ih =>
    simp only [noErrorPart, List.all_cons, Bool.and_eq_true] at h
    have hrest := ih (by simpa [noErrorPart] using h.2)
    cases p with
    | toolResult n out =>
      simp [flatEvents, partEvents, List.filter_append, isErrorEv,
        modeSwitch_no_error, hrest]
    | textDelta t => simp [flatEvents, partEvents, isErrorEv, hrest]
    | toolCall n inp id => simp [flatEvents, partEvents, isErrorEv, hrest]
    | errorPart m => simp [isErrorPart] at h
    | otherPart => simp [flatEvents, partEvents, hrest]

theorem consume_abort_prefix (ps : List StreamPart) (k : Nat)
    (hk : k < ps.length) (herr : noErrorPart (ps.take k) = true) :
    consumeParts ps (some k) =
      (flatEvents (ps.take k), concatText (ps.take k),
        LoopExit.abortedBreak) := by
  induction ps generalizing k with
  | nil => simp at hk
  | cons p rest ih =>
    cases k with
    | zero =>
      simp [consumeParts, isAbortedNow, flatEvents, concatText]
    | succ k =>
      simp only [List.take_succ_cons, noErrorPart, List.all_cons,
        Bool.and_eq_true] at herr
      have hk' : k < rest.length := by simpa using hk
      have hrec := ih k hk' (by simpa [noErrorPart] using herr.2)
      have hdec : decAbort (some (k + 1)) = some k := rfl
      cases p with
      | textDelta t =>
        simp [consumeParts, isAbortedNow, hdec, hrec, flatEvents,
          concatText, partEvents, partText]
      | toolCall n inp id =>
        simp [consumeParts, isAbortedNow, hdec, hrec, flatEvents,
          concatText, partEvents, partText]
      | toolResult n out =>
        simp [consumeParts, isAbortedNow, hdec, hrec, flatEvents,
          concatText, partEvents, partText]
      | errorPart m => simp [isErrorPart] at herr
      | otherPart =>
        simp [consumeParts, isAbortedNow, hdec, hrec, flatEvents,
          concatText, partEvents, partText]

theorem consume_mem_modeSwitch (ps : List StreamPart) (ab : Option Nat)
    (i : Nat) (mode pp pc : String)
    (hp : ps.get? i = some (StreamPart.toolResult "plan_exit"
      (ToolOutputVal.modeSwitchJson mode pp pc)))
    (herr : noErrorPart (ps.take i) = true)
    (hab : abortAfter ab i = true) :
    AgentEvent.mode_switch mode pp pc ∈ (consumeParts ps ab).1 := by
  induction ps generalizing ab i with
  | nil => simp at hp
  | cons p rest ih =>
    have habnow : isAbortedNow ab = false := by
      cases ab with
      | none => rfl
      | some k =>
        cases k with
        | zero => simp [abortAfter] at hab
        | succ k => rfl
    cases i with
    | zero =>
      simp only [List.get?] at hp
      injection hp with hp
      subst hp
      simp [consumeParts, habnow, modeSwitchEvents]
    | succ i =>
      simp only [List.get?] at hp
      simp only [List.take_succ_cons, noErrorPart, List.all_cons,
        Bool.and_eq_true] at herr
      have hab' : abortAfter (decAbort ab) i = true := by
        cases ab with
        | none => rfl
        | some k =>
          cases k with
          | zero => simp [abortAfter] at hab
          | succ k =>
            simp only [abortAfter, decAbort, decide_eq_true_eq] at hab ⊢
            omega
      have hrec := ih (decAbort ab) i hp
        (by simpa [noErrorPart] using herr.2) hab'
      cases p with
      | textDelta t =>
        simp only [consumeParts, habnow, Bool.false_eq_true, if_false]
        exact List.mem_cons_of_mem _ hrec
      | toolCall n inp id =>
        simp only [consumeParts, habnow, Bool.false_eq_true, if_false]
        exact List.mem_cons_of_mem _ hrec
      | toolResult n out =>
        simp only [consumeParts, habnow, Bool.false_eq_true, if_false]
        exact List.mem_cons_of_mem _ (List.mem_append_right _ hrec)
      | errorPart m => simp [isErrorPart] at herr
      | otherPart =>
        simp only [consumeParts, habnow, Bool.false_eq_true, if_false]
        exact hrec

/-- Claim C9: for every plan content string, writing it via the plan-write
tool's execute and then reading it back via `readPlan` on the same plan
path (as the agent-mode prompt builder does) yields byte-identical
content. -/
theorem c9_plan_roundtrip (fs : String → Option String)
    (planPath content : String) :
    readPlan (planWriteExecute fs planPath content).1 planPath =
      some content := by
  simp [readPlan, planWriteExecute]

theorem c9_plan_roundtrip_witness :
    readPlan (planWriteExecute (fun _ => none)
      "/home/u/.coodeen/plans/s1.md" "# My plan\nstep 1\n").1
      "/home/u/.coodeen/plans/s1.md" = some "# My plan\nstep 1\n" :=
  c9_plan_roundtrip (fun _ => none) "/home/u/.coodeen/plans/s1.md"
    "# My plan\nstep 1\n"

/-- Claim C10: `createTools` called with mode plan but no plan path
(planPath `undefined`, i.e. `none`) returns the agent-mode tool set —
containing write and edit, lacking question, plan_write and plan_exit —
because the gate `mode === "plan" && planPath` is falsy. -/
theorem c10_plan_mode_without_planPath (projectDir : String) (sv : Bool) :
    createTools projectDir Mode.plan none sv =
        createTools projectDir Mode.agent none sv ∧
      hasTool "write" (createTools projectDir Mode.plan none sv) = true ∧
      hasTool "edit" (createTools projectDir Mode.plan none sv) = true ∧
      hasTool "question" (createTools projectDir Mode.plan none sv) = false ∧
      hasTool "plan_write" (createTools projectDir Mode.plan none sv) = false ∧
      hasTool "plan_exit" (createTools projectDir Mode.plan none sv) = false :=
  ⟨rfl, rfl, rfl, rfl, rfl, rfl⟩

theorem c10_plan_mode_without_planPath_witness :
    createTools "/proj" Mode.plan none true =
        createTools "/proj" Mode.agent none true ∧
      hasTool "write" (createTools "/proj" Mode.plan none true) = true ∧
      hasTool "edit" (createTools "/proj" Mode.plan none true) = true ∧
      hasTool "question" (createTools "/proj" Mode.plan none true) = false ∧
      hasTool "plan_write" (createTools "/proj" Mode.plan none true) = false ∧
      hasTool "plan_exit" (createTools "/proj" Mode.plan none true) = false :=
  c10_plan_mode_without_planPath "/proj" true

/-- Claim C4, counterexample: the claim quantifies over every plan path,
but for the empty-string plan path the JS-truthiness gate
`mode === "plan" && planPath` is falsy, so plan mode receives the agent
tool set: write and edit ARE present in the plan-mode registry. -/
theorem c4_counterexample :
    hasTool "write" (createTools "/p" Mode.plan (some "") true) = true ∧
      hasTool "edit" (createTools "/p" Mode.plan (some "") true) = true := by
  constructor <;> rfl

/-- Claim C4 (amended): for every project directory and NON-EMPTY plan
path, the plan-mode registry contains neither write nor edit, and for
every project directory and any plan-path argument the agent-mode registry
contains neither plan_write nor plan_exit nor question. -/
theorem c4_tool_gating (projectDir planPath : String) (sv : Bool)
    (h : planPath ≠ "") :
    (hasTool "write" (createTools projectDir Mode.plan (some planPath) sv)
          = false ∧
        hasTool "edit" (createTools projectDir Mode.plan (some planPath) sv)
          = false) ∧
      ∀ pp : Option String,
        hasTool "plan_write" (createTools projectDir Mode.agent pp sv)
            = false ∧
          hasTool "plan_exit" (createTools projectDir Mode.agent pp sv)
            = false ∧
          hasTool "question" (createTools projectDir Mode.agent pp sv)
            = false := by
  constructor
  · simp only [createTools, if_pos h]
    exact ⟨rfl, rfl⟩
  · intro pp
    cases pp <;> exact ⟨rfl, rfl, rfl⟩

theorem c4_tool_gating_witness :
    (hasTool "write" (createTools "/p" Mode.plan (some "/plan.md") true)
          = false ∧
        hasTool "edit" (createTools "/p" Mode.plan (some "/plan.md") true)
          = false) ∧
      (hasTool "plan_write" (createTools "/p" Mode.agent (some "/plan.md") true)
          = false ∧
        hasTool "plan_exit" (createTools "/p" Mode.agent (some "/plan.md") true)
          = false ∧
        hasTool "question" (createTools "/p" Mode.agent (some "/plan.md") true)
          = false) :=
  ⟨(c4_tool_gating "/p" "/plan.md" true (by decide)).1,
   (c4_tool_gating "/p" "/plan.md" true (by decide)).2 (some "/plan.md")⟩

/-- Claim C5: the edit tool with an `old_string` occurring exactly once is
claimed to replace that occurrence by `new_string`. The code calls JS
`content.replace(old_string, new_string)`, which processes ECMAScript
substitution patterns in the replacement string: with file content
"hello a world", old_string "a" (exactly one occurrence) and new_string
consisting of two `$&` sequences, the edit reports success but writes
"hello aa world" instead of the content with `new_string` inserted
literally — contradicting the tool's own description, "Perform an exact
string replacement in a file". -/
theorem c5_edit_dollar_substitution :
    editExecute "hello a world" "f.txt" "a" "$&$&" =
        EditResult.edited "hello aa world"
          "Edited f.txt: replaced 1 occurrence" ∧
      "hello aa world" ≠ "hello $&$& world" := by
  constructor
  · decide
  · decide

/-- Claim C8: a user turn submitted with 2 images and text does NOT
reconstruct as a multi-part turn after reload, because `chat.post`
persists the turn via `message.append(sessionId, "user", prompt)`, whose
signature stores no images: the reloaded history maps the row to a plain
text turn with zero image parts, not to the 2-image multi-part turn that
the reconstruction branch of `runAgent`, the DB `images` column and the
UI all expect. -/
theorem c8_images_not_persisted :
    (message.listBySession
        (chatPostSaveUser [] "s1" "look" (some ["dataA", "dataB"])) "s1").map
        buildHistoryMessage = [ModelMsg.textMsg "user" "look"] ∧
      [ModelMsg.textMsg "user" "look"] ≠
        [ModelMsg.multiPart [ModelMsgPart.image "dataA",
          ModelMsgPart.image "dataB", ModelMsgPart.text "look"]] := by
  constructor
  · decide
  · decide

theorem mentions_append_right (needle A X pre post : String)
    (h : X = pre ++ needle ++ post) : mentions needle (A ++ X) := by
  refine ⟨A ++ pre, post, ?_⟩
  rw [h]
  simp [strAppendAssoc]

/-- Claim C7: a `runAgent` call whose provider id has no stored credential
record, or whose stored apiKey is empty, yields exactly one event — an
`error` event whose message mentions the provider id and "Settings" —
without touching the stream (the result does not depend on any stream
part), and the message table is unchanged (no assistant message is
persisted). -/
theorem c7_resolution_failure (env : RunEnv) (inp : RunInput)
    (h : env.providers inp.providerId = none ∨
      ∃ row, env.providers inp.providerId = some row ∧ row.apiKey = "") :
    ∃ msg, runAgent env inp = ([AgentEvent.error msg], env.db) ∧
      mentions inp.providerId msg ∧ mentions "Settings" msg := by
  rcases h with hnone | ⟨row, hrow, hkey⟩
  · refine ⟨"Provider '" ++ inp.providerId ++
      "' not configured. Go to Settings.", ?_, ?_, ?_⟩
    · simp [runAgent, resolveProvider, hnone]
    · exact ⟨"Provider '", "' not configured. Go to Settings.", rfl⟩
    · exact mentions_append_right "Settings"
        ("Provider '" ++ inp.providerId) "' not configured. Go to Settings."
        "' not configured. Go to " "." (by decide)
  · refine ⟨"API key not configured for " ++ inp.providerId ++
      ". Go to Settings.", ?_, ?_, ?_⟩
    · simp [runAgent, resolveProvider, hrow, hkey]
    · exact ⟨"API key not configured for ", ". Go to Settings.", rfl⟩
    · exact mentions_append_right "Settings"
        ("API key not configured for " ++ inp.providerId)
        ". Go to Settings." ". Go to " "." (by decide)

theorem c7_resolution_failure_witness :
    ∃ msg,
      runAgent
        { providers := (fun _ => none), db := [], fs := (fun _ => none),
          home := "/home/u",
          parts := [StreamPart.textDelta "never"], streamExc := none,
          abortAt := none, supportsVision := true }
        { sessionId := "s1", prompt := "p", providerId := "anthropic",
          modelId := "m", projectDir := "/proj", images := none,
          mode := Mode.agent } =
        ([AgentEvent.error msg], []) ∧
      mentions "anthropic" msg ∧ mentions "Settings" msg :=
  c7_resolution_failure _ _ (Or.inl rfl)

theorem runAgent_shape (env : RunEnv) (inp : RunInput)
    (hres : isResolveError
      (resolveProvider env.providers inp.providerId inp.modelId) = false) :
    runAgent env inp =
      match (consumeParts env.parts env.abortAt).2.2 with
      | LoopExit.errorReturn => ((consumeParts env.parts env.abortAt).1, env.db)
      | LoopExit.abortedBreak =>
        finalizeRun (consumeParts env.parts env.abortAt).1
          (consumeParts env.parts env.abortAt).2.1 env.db inp.sessionId
      | LoopExit.completed =>
        match env.streamExc with
        | none =>
          finalizeRun (consumeParts env.parts env.abortAt).1
            (consumeParts env.parts env.abortAt).2.1 env.db inp.sessionId
        | some e =>
          if abortedAtEnd env.abortAt env.parts.length then
            ((consumeParts env.parts env.abortAt).1, env.db)
          else
            ((consumeParts env.parts env.abortAt).1 ++ [AgentEvent.error e],
              env.db) := by
  unfold runAgent
  cases hr : resolveProvider env.providers inp.providerId inp.modelId with
  | resolveError e => rw [hr] at hres; simp [isResolveError] at hres
  | resolved p m => rfl

theorem hasDone_false_of_filter_nil (l : List AgentEvent)
    (h : l.filter isDoneEv = []) : hasDone l = false := by
  induction l with
  | nil => rfl
  | cons e rest ih =>
    by_cases he : isDoneEv e = true
    · simp [he] at h
    · simp only [List.filter_cons, he, Bool.false_eq_true, if_false] at h
      simp [hasDone, List.any_cons, he, ih h]
      simpa [hasDone] using ih h

/-- Claim C6: for every run of `runAgent`, the number of `error` events in
the emitted sequence is 0 or 1, and every `error` event is the last event
of the sequence. -/
theorem c6_at_most_one_trailing_error (env : RunEnv) (inp : RunInput) :
    ((runAgent env inp).1.filter isErrorEv).length ≤ 1 ∧
      errorsLastOk (runAgent env inp).1 = true := by
  by_cases hres : isResolveError
      (resolveProvider env.providers inp.providerId inp.modelId) = true
  · cases hr : resolveProvider env.providers inp.providerId inp.modelId with
    | resolveError e =>
      have : runAgent env inp = ([AgentEvent.error e], env.db) := by
        unfold runAgent
        rw [hr]
      rw [this]
      exact ⟨by simp [isErrorEv], by simp [errorsLastOk, isErrorEv]⟩
    | resolved p m => rw [hr] at hres; simp [isResolveError] at hres
  · rw [runAgent_shape env inp (by simpa using hres)]
    split
    · rename_i hex
      obtain ⟨pre, msg, hev, hpre⟩ :=
        consume_errorReturn_form env.parts env.abortAt hex
      simp only [hev]
      constructor
      · simp [List.filter_append, hpre, isErrorEv]
      · exact errorsLastOk_append_single pre _ hpre
    · rename_i hex
      have hfree := consume_no_error_of_not_errorReturn env.parts env.abortAt
        (by rw [hex]; intro hc; cases hc)
      simp only [finalizeRun]
      split
      · constructor
        · simp [List.filter_append, hfree, isErrorEv]
        · exact errorsLastOk_append_single _ _ hfree
      · constructor
        · simp [List.filter_append, hfree, isErrorEv]
        · exact errorsLastOk_append_single _ _ hfree
    · rename_i hex
      have hfree := consume_no_error_of_not_errorReturn env.parts env.abortAt
        (by rw [hex]; intro hc; cases hc)
      split
      · simp only [finalizeRun]
        split
        · constructor
          · simp [List.filter_append, hfree, isErrorEv]
          · exact errorsLastOk_append_single _ _ hfree
        · constructor
          · simp [List.filter_append, hfree, isErrorEv]
          · exact errorsLastOk_append_single _ _ hfree
      · split
        · exact ⟨by simp [hfree], errorsLastOk_of_no_errors _ hfree⟩
        · constructor
          · simp [List.filter_append, hfree, isErrorEv]
          · exact errorsLastOk_append_single _ _ hfree

theorem c6_at_most_one_trailing_error_witness :
    ((runAgent
        { providers := (fun pid =>
            if pid = "anthropic" then some ⟨"sk"⟩ else none),
          db := [], fs := (fun _ => none), home := "/home/u",
          parts := [StreamPart.textDelta "x", StreamPart.errorPart "boom"],
          streamExc := none, abortAt := none, supportsVision := true }
        { sessionId := "s1", prompt := "p", providerId := "anthropic",
          modelId := "m", projectDir := "/proj", images := none,
          mode := Mode.agent }).1.filter isErrorEv).length ≤ 1 ∧
      errorsLastOk (runAgent
        { providers := (fun pid =>
            if pid = "anthropic" then some ⟨"sk"⟩ else none),
          db := [], fs := (fun _ => none), home := "/home/u",
          parts := [StreamPart.textDelta "x", StreamPart.errorPart "boom"],
          streamExc := none, abortAt := none, supportsVision := true }
        { sessionId := "s1", prompt := "p", providerId := "anthropic",
          modelId := "m", projectDir := "/proj", images := none,
          mode := Mode.agent }).1 = true :=
  c6_at_most_one_trailing_error _ _

/-- The run gets past provider resolution and reaches step 6 of `runAgent`
(the `finalizing` block): the loop ended by exhausting the stream with no
trailing exception, or by the abort-check break. -/
def reachesFinalizing (env : RunEnv) (inp : RunInput) : Bool :=
  !isResolveError
      (resolveProvider env.providers inp.providerId inp.modelId) &&
    (match (consumeParts env.parts env.abortAt).2.2 with
     | LoopExit.errorReturn => false
     | LoopExit.abortedBreak => true
     | LoopExit.completed => env.streamExc.isNone)

theorem tokenConcat_finalize (evs : List AgentEvent) (cnt : String)
    (db : List Msg) (sid : String) (htc : tokenConcat evs = cnt) :
    tokenConcat (finalizeRun evs cnt db sid).1 = cnt := by
  unfold finalizeRun
  split
  · simp [tokenConcat_append, tokenConcat, htc]
  · simp [tokenConcat_append, tokenConcat, htc]

theorem finalize_spec (evs : List AgentEvent) (cnt : String) (db : List Msg)
    (sid : String) (htc : tokenConcat evs = cnt)
    (hnd : evs.filter isDoneEv = []) :
    (tokenConcat (finalizeRun evs cnt db sid).1 ≠ "" →
      ∃ m : Msg, (finalizeRun evs cnt db sid).2 = db ++ [m] ∧
        m.role = "assistant" ∧ m.sessionId = sid ∧
        m.content = tokenConcat (finalizeRun evs cnt db sid).1 ∧
        ((finalizeRun evs cnt db sid).1.filter isDoneEv).length = 1 ∧
        (finalizeRun evs cnt db sid).1.getLast? =
          some (AgentEvent.done m.id)) ∧
    (cnt = "" →
      ((finalizeRun evs cnt db sid).1.filter isDoneEv).length = 1 ∧
      (finalizeRun evs cnt db sid).1.getLast? = some (AgentEvent.done "") ∧
      (finalizeRun evs cnt db sid).2 = db) := by
  have hbuf := tokenConcat_finalize evs cnt db sid htc
  by_cases hc : 0 < cnt.length
  · have hrun : finalizeRun evs cnt db sid =
        (evs ++ [AgentEvent.done (freshId db)],
         db ++ [{ id := freshId db, sessionId := sid, role := "assistant",
                  content := cnt, images := none }]) := by
      unfold finalizeRun
      rw [if_pos hc]
      rfl
    constructor
    · intro _
      refine ⟨{ id := freshId db, sessionId := sid, role := "assistant",
                content := cnt, images := none }, ?_, rfl, rfl, ?_, ?_, ?_⟩
      · rw [hrun]
      · rw [hbuf]
      · rw [hrun]
        simp [List.filter_append, hnd, isDoneEv]
      · rw [hrun]
        simp [List.getLast?_concat]
    · intro hcnt
      rw [hcnt] at hc
      simp at hc
  · have hcnt : cnt = "" := by
      by_contra hne
      exact hc ((strLengthPos cnt).mpr hne)
    have hrun : finalizeRun evs cnt db sid =
        (evs ++ [AgentEvent.done ""], db) := by
      unfold finalizeRun
      rw [if_neg hc]
    constructor
    · intro hne
      rw [hbuf] at hne
      exact absurd hcnt hne
    · intro _
      refine ⟨?_, ?_, ?_⟩
      · rw [hrun]
        simp [List.filter_append, hnd, isDoneEv]
      · rw [hrun]
        simp [List.getLast?_concat]
      · rw [hrun]

/-- Claim C1: for every run that reaches the finalizing step with a
non-empty accumulated text buffer (the in-order concatenation of the
emitted token events' contents), exactly one `done` event is emitted, it
is the last event, and its messageId is the id of a message appended to
the table with role assistant and content equal to the buffer; for every
finalizing run where the model produced zero text parts, exactly one
`done` event is emitted with the empty messageId and the table is
unchanged. -/
theorem c1_done_matches_persisted (env : RunEnv) (inp : RunInput)
    (hfin : reachesFinalizing env inp = true) :
    (tokenConcat (runAgent env inp).1 ≠ "" →
      ∃ m : Msg, (runAgent env inp).2 = env.db ++ [m] ∧
        m.role = "assistant" ∧ m.sessionId = inp.sessionId ∧
        m.content = tokenConcat (runAgent env inp).1 ∧
        ((runAgent env inp).1.filter isDoneEv).length = 1 ∧
        (runAgent env inp).1.getLast? = some (AgentEvent.done m.id)) ∧
    (noTextPart env.parts = true →
      ((runAgent env inp).1.filter isDoneEv).length = 1 ∧
      (runAgent env inp).1.getLast? = some (AgentEvent.done "") ∧
      (runAgent env inp).2 = env.db) := by
  have hres : isResolveError
      (resolveProvider env.providers inp.providerId inp.modelId) = false := by
    simp only [reachesFinalizing, Bool.and_eq_true, Bool.not_eq_true'] at hfin
    exact hfin.1
  have hspec := finalize_spec (consumeParts env.parts env.abortAt).1
    (consumeParts env.parts env.abortAt).2.1 env.db inp.sessionId
    (consume_tokenConcat env.parts env.abortAt)
    (consume_no_done env.parts env.abortAt)
  rw [runAgent_shape env inp hres]
  split
  · rename_i hex
    simp only [reachesFinalizing, hex, Bool.and_eq_true] at hfin
    exact absurd hfin.2 (by simp)
  · exact ⟨fun hne => hspec.1 hne, fun hnt => hspec.2
      (consume_no_text_content env.parts env.abortAt hnt)⟩
  · rename_i hex
    simp only [reachesFinalizing, hex, Bool.and_eq_true] at hfin
    split
    · exact ⟨fun hne => hspec.1 hne, fun hnt => hspec.2
        (consume_no_text_content env.parts env.abortAt hnt)⟩
    · rename_i hsx
      rw [hsx] at hfin
      exact absurd hfin.2 (by simp)

theorem c1_done_matches_persisted_witness :
    (∃ m : Msg,
      (runAgent
        { providers := (fun pid =>
            if pid = "anthropic" then some ⟨"sk"⟩ else none),
          db := [], fs := (fun _ => none), home := "/home/u",
          parts := [StreamPart.textDelta "hi"], streamExc := none,
          abortAt := none, supportsVision := true }
        { sessionId := "s1", prompt := "p", providerId := "anthropic",
          modelId := "m", projectDir := "/proj", images := none,
          mode := Mode.agent }).2 = [] ++ [m] ∧
      m.role = "assistant" ∧ m.sessionId = "s1" ∧
      m.content = tokenConcat (runAgent
        { providers := (fun pid =>
            if pid = "anthropic" then some ⟨"sk"⟩ else none),
          db := [], fs := (fun _ => none), home := "/home/u",
          parts := [StreamPart.textDelta "hi"], streamExc := none,
          abortAt := none, supportsVision := true }
        { sessionId := "s1", prompt := "p", providerId := "anthropic",
          modelId := "m", projectDir := "/proj", images := none,
          mode := Mode.agent }).1 ∧
      ((runAgent
        { providers := (fun pid =>
            if pid = "anthropic" then some ⟨"sk"⟩ else none),
          db := [], fs := (fun _ => none), home := "/home/u",
          parts := [StreamPart.textDelta "hi"], streamExc := none,
          abortAt := none, supportsVision := true }
        { sessionId := "s1", prompt := "p", providerId := "anthropic",
          modelId := "m", projectDir := "/proj", images := none,
          mode := Mode.agent }).1.filter isDoneEv).length = 1 ∧
      (runAgent
        { providers := (fun pid =>
            if pid = "anthropic" then some ⟨"sk"⟩ else none),
          db := [], fs := (fun _ => none), home := "/home/u",
          parts := [StreamPart.textDelta "hi"], streamExc := none,
          abortAt := none, supportsVision := true }
        { sessionId := "s1", prompt := "p", providerId := "anthropic",
          modelId := "m", projectDir := "/proj", images := none,
          mode := Mode.agent }).1.getLast? = some (AgentEvent.done m.id)) ∧
    (((runAgent
        { providers := (fun pid =>
            if pid = "anthropic" then some ⟨"sk"⟩ else none),
          db := [], fs := (fun _ => none), home := "/home/u",
          parts := [StreamPart.toolCall "read" "in" "id1"],
          streamExc := none, abortAt := none, supportsVision := true }
        { sessionId := "s1", prompt := "p", providerId := "anthropic",
          modelId := "m", projectDir := "/proj", images := none,
          mode := Mode.agent }).1.filter isDoneEv).length = 1 ∧
      (runAgent
        { providers := (fun pid =>
            if pid = "anthropic" then some ⟨"sk"⟩ else none),
          db := [], fs := (fun _ => none), home := "/home/u",
          parts := [StreamPart.toolCall "read" "in" "id1"],
          streamExc := none, abortAt := none, supportsVision := true }
        { sessionId := "s1", prompt := "p", providerId := "anthropic",
          modelId := "m", projectDir := "/proj", images := none,
          mode := Mode.agent }).1.getLast? = some (AgentEvent.done "") ∧
      (runAgent
        { providers := (fun pid =>
            if pid = "anthropic" then some ⟨"sk"⟩ else none),
          db := [], fs := (fun _ => none), home := "/home/u",
          parts := [StreamPart.toolCall "read" "in" "id1"],
          streamExc := none, abortAt := none, supportsVision := true }
        { sessionId := "s1", prompt := "p", providerId := "anthropic",
          modelId := "m", projectDir := "/proj", images := none,
          mode := Mode.agent }).2 = []) :=
  ⟨(c1_done_matches_persisted _ _ (by decide)).1 (by decide),
   (c1_done_matches_persisted _ _ (by decide)).2 (by decide)⟩

/-- Claim C2, counterexample: a run whose abort signal fires after the
first of two stream parts (mid-stream) for which the loop's abort check
observes the cancellation and breaks: contrary to the claim, the run then
falls through to finalization and emits a `done` event after the
cancellation point, persisting the partial text. -/
theorem c2_counterexample :
    (runAgent
        { providers := (fun pid =>
            if pid = "anthropic" then some ⟨"sk"⟩ else none),
          db := [], fs := (fun _ => none), home := "/home/u",
          parts := [StreamPart.textDelta "hel", StreamPart.textDelta "lo"],
          streamExc := none, abortAt := some 1, supportsVision := true }
        { sessionId := "s1", prompt := "p", providerId := "anthropic",
          modelId := "m", projectDir := "/proj", images := none,
          mode := Mode.agent }).1 =
        [AgentEvent.token "hel", AgentEvent.done "m0"] ∧
      (1 : Nat) < 2 ∧
      hasDone (runAgent
        { providers := (fun pid =>
            if pid = "anthropic" then some ⟨"sk"⟩ else none),
          db := [], fs := (fun _ => none), home := "/home/u",
          parts := [StreamPart.textDelta "hel", StreamPart.textDelta "lo"],
          streamExc := none, abortAt := some 1, supportsVision := true }
        { sessionId := "s1", prompt := "p", providerId := "anthropic",
          modelId := "m", projectDir := "/proj", images := none,
          mode := Mode.agent }).1 = true ∧
      (runAgent
        { providers := (fun pid =>
            if pid = "anthropic" then some ⟨"sk"⟩ else none),
          db := [], fs := (fun _ => none), home := "/home/u",
          parts := [StreamPart.textDelta "hel", StreamPart.textDelta "lo"],
          streamExc := none, abortAt := some 1, supportsVision := true }
        { sessionId := "s1", prompt := "p", providerId := "anthropic",
          modelId := "m", projectDir := "/proj", images := none,
          mode := Mode.agent }).2 =
        [{ id := "m0", sessionId := "s1", role := "assistant",
           content := "hel", images := none }] := by
  refine ⟨by decide, by decide, by decide, by decide⟩

/-- Claim C2 (amended): for every run cancelled mid-stream whose abort is
observed by the loop's break (the signal fires after k parts with parts
remaining, no model error part among the first k), the run emits exactly
the events of the consumed prefix followed by one finalizing `done` event
— so no token/tool/error event is emitted after the cancellation point and
no `error` event appears, but one `done` event does (persisting the
accumulated text when non-empty). -/
theorem c2_cancelled_midstream (env : RunEnv) (inp : RunInput)
    (hres : isResolveError
      (resolveProvider env.providers inp.providerId inp.modelId) = false)
    (k : Nat) (hk : env.abortAt = some k) (hmid : k < env.parts.length)
    (herr : noErrorPart (env.parts.take k) = true) :
    runAgent env inp =
        finalizeRun (flatEvents (env.parts.take k))
          (concatText (env.parts.take k)) env.db inp.sessionId ∧
      (runAgent env inp).1.filter isErrorEv = [] ∧
      ((runAgent env inp).1.filter isDoneEv).length = 1 := by
  have hcp : consumeParts env.parts env.abortAt =
      (flatEvents (env.parts.take k), concatText (env.parts.take k),
        LoopExit.abortedBreak) := by
    rw [hk]
    exact consume_abort_prefix env.parts k hmid herr
  have hrun : runAgent env inp =
      finalizeRun (flatEvents (env.parts.take k))
        (concatText (env.parts.take k)) env.db inp.sessionId := by
    rw [runAgent_shape env inp hres, hcp]
  refine ⟨hrun, ?_, ?_⟩
  · rw [hrun]
    unfold finalizeRun
    split
    · simp [List.filter_append, flatEvents_no_error _ herr, isErrorEv]
    · simp [List.filter_append, flatEvents_no_error _ herr, isErrorEv]
  · rw [hrun]
    unfold finalizeRun
    split
    · simp [List.filter_append, flatEvents_no_done, isDoneEv]
    · simp [List.filter_append, flatEvents_no_done, isDoneEv]

theorem c2_cancelled_midstream_witness :
    runAgent
        { providers := (fun pid =>
            if pid = "anthropic" then some ⟨"sk"⟩ else none),
          db := [], fs := (fun _ => none), home := "/home/u",
          parts := [StreamPart.textDelta "hel", StreamPart.textDelta "lo"],
          streamExc := none, abortAt := some 1, supportsVision := true }
        { sessionId := "s1", prompt := "p", providerId := "anthropic",
          modelId := "m", projectDir := "/proj", images := none,
          mode := Mode.agent } =
        finalizeRun
          (flatEvents ([StreamPart.textDelta "hel",
            StreamPart.textDelta "lo"].take 1))
          (concatText ([StreamPart.textDelta "hel",
            StreamPart.textDelta "lo"].take 1)) [] "s1" ∧
      (runAgent
        { providers := (fun pid =>
            if pid = "anthropic" then some ⟨"sk"⟩ else none),
          db := [], fs := (fun _ => none), home := "/home/u",
          parts := [StreamPart.textDelta "hel", StreamPart.textDelta "lo"],
          streamExc := none, abortAt := some 1, supportsVision := true }
        { sessionId := "s1", prompt := "p", providerId := "anthropic",
          modelId := "m", projectDir := "/proj", images := none,
          mode := Mode.agent }).1.filter isErrorEv = [] ∧
      ((runAgent
        { providers := (fun pid =>
            if pid = "anthropic" then some ⟨"sk"⟩ else none),
          db := [], fs := (fun _ => none), home := "/home/u",
          parts := [StreamPart.textDelta "hel", StreamPart.textDelta "lo"],
          streamExc := none, abortAt := some 1, supportsVision := true }
        { sessionId := "s1", prompt := "p", providerId := "anthropic",
          modelId := "m", projectDir := "/proj", images := none,
          mode := Mode.agent }).1.filter isDoneEv).length = 1 :=
  c2_cancelled_midstream _ _ (by decide) 1 rfl (by decide) (by decide)

/-- The `planContent` field the plan-exit tool places into its sentinel,
as a function of the plan-file read result: the file's text when that text
is non-empty, and the placeholder when the read failed or the file is
empty. -/
def planExitContentOf (r : Option String) : String :=
  match r with
  | some s => if s = "" then "(no plan file written)" else s
  | none => "(no plan file written)"

theorem planExitExecute_eq (fs : String → Option String) (p : String) :
    planExitExecute fs p =
      ToolOutputVal.modeSwitchJson "agent" p (planExitContentOf (fs p)) := by
  unfold planExitExecute planExitContentOf
  cases fs p <;> rfl

/-- Claim C3 (amended): a plan-mode run whose stream contains, at a
position the loop processes (no earlier model error part, abort not yet
fired there), the tool-result of a successful `plan_exit` call executed
against the session's plan path, emits a `mode_switch` event with mode
"agent" and that plan path; its `planContent` equals the plan file's text
when that text is non-empty, and the placeholder "(no plan file written)"
when the file is missing or empty; and whenever the run emits a `done`
event, the `mode_switch` event precedes it (the `done` is the last event
and the `mode_switch` occurs strictly before it). -/
theorem c3_plan_exit_handoff (env : RunEnv) (inp : RunInput)
    (hres : isResolveError
      (resolveProvider env.providers inp.providerId inp.modelId) = false)
    (_hmode : inp.mode = Mode.plan) (i : Nat)
    (hp : env.parts.get? i = some (StreamPart.toolResult "plan_exit"
      (planExitExecute env.fs
        (getPlanPath env.home inp.projectDir inp.sessionId))))
    (herr : noErrorPart (env.parts.take i) = true)
    (hab : abortAfter env.abortAt i = true) :
    AgentEvent.mode_switch "agent"
        (getPlanPath env.home inp.projectDir inp.sessionId)
        (planExitContentOf
          (env.fs (getPlanPath env.home inp.projectDir inp.sessionId)))
      ∈ (runAgent env inp).1 ∧
    (hasDone (runAgent env inp).1 = true →
      ∃ d, (runAgent env inp).1.getLast? = some (AgentEvent.done d) ∧
        AgentEvent.mode_switch "agent"
            (getPlanPath env.home inp.projectDir inp.sessionId)
            (planExitContentOf
              (env.fs (getPlanPath env.home inp.projectDir inp.sessionId)))
          ∈ (runAgent env inp).1.dropLast) := by
  rw [planExitExecute_eq] at hp
  have hmem := consume_mem_modeSwitch env.parts env.abortAt i "agent"
    (getPlanPath env.home inp.projectDir inp.sessionId)
    (planExitContentOf
      (env.fs (getPlanPath env.home inp.projectDir inp.sessionId)))
    hp herr hab
  have hnd := consume_no_done env.parts env.abortAt
  rw [runAgent_shape env inp hres]
  split
  · refine ⟨hmem, ?_⟩
    intro hd
    rw [hasDone_false_of_filter_nil _ hnd] at hd
    cases hd
  · simp only [finalizeRun]
    split
    · refine ⟨List.mem_append_left _ hmem, ?_⟩
      intro _
      exact ⟨(message.append env.db inp.sessionId "assistant"
          (consumeParts env.parts env.abortAt).2.1).1.id,
        List.getLast?_concat _, by
          rw [List.dropLast_concat]
          exact hmem⟩
    · refine ⟨List.mem_append_left _ hmem, ?_⟩
      intro _
      exact ⟨"", List.getLast?_concat _, by
        rw [List.dropLast_concat]
        exact hmem⟩
  · split
    · simp only [finalizeRun]
      split
      · refine ⟨List.mem_append_left _ hmem, ?_⟩
        intro _
        exact ⟨(message.append env.db inp.sessionId "assistant"
            (consumeParts env.parts env.abortAt).2.1).1.id,
          List.getLast?_concat _, by
            rw [List.dropLast_concat]
            exact hmem⟩
      · refine ⟨List.mem_append_left _ hmem, ?_⟩
        intro _
        exact ⟨"", List.getLast?_concat _, by
          rw [List.dropLast_concat]
          exact hmem⟩
    · split
      · refine ⟨hmem, ?_⟩
        intro hd
        rw [hasDone_false_of_filter_nil _ hnd] at hd
        cases hd
      · refine ⟨List.mem_append_left _ hmem, ?_⟩
        intro hd
        have h1 := hasDone_false_of_filter_nil _ hnd
        rw [hasDone] at h1
        simp [hasDone, List.any_append, h1, isDoneEv] at hd

theorem c3_plan_exit_handoff_witness :
    (AgentEvent.mode_switch "agent"
        (getPlanPath "/home/u" "/proj" "s1")
        (planExitContentOf ((fun p =>
          if p = getPlanPath "/home/u" "/proj" "s1" then some "# Plan A"
          else none) (getPlanPath "/home/u" "/proj" "s1")))
      ∈ (runAgent
        { providers := (fun pid =>
            if pid = "anthropic" then some ⟨"sk"⟩ else none),
          db := [],
          fs := (fun p =>
            if p = getPlanPath "/home/u" "/proj" "s1" then some "# Plan A"
            else none),
          home := "/home/u",
          parts := [StreamPart.toolResult "plan_exit"
            (planExitExecute (fun p =>
              if p = getPlanPath "/home/u" "/proj" "s1" then some "# Plan A"
              else none) (getPlanPath "/home/u" "/proj" "s1"))],
          streamExc := none, abortAt := none, supportsVision := true }
        { sessionId := "s1", prompt := "p", providerId := "anthropic",
          modelId := "m", projectDir := "/proj", images := none,
          mode := Mode.plan }).1) ∧
      ∃ d, (runAgent
        { providers := (fun pid =>
            if pid = "anthropic" then some ⟨"sk"⟩ else none),
          db := [],
          fs := (fun p =>
            if p = getPlanPath "/home/u" "/proj" "s1" then some "# Plan A"
            else none),
          home := "/home/u",
          parts := [StreamPart.toolResult "plan_exit"
            (planExitExecute (fun p =>
              if p = getPlanPath "/home/u" "/proj" "s1" then some "# Plan A"
              else none) (getPlanPath "/home/u" "/proj" "s1"))],
          streamExc := none, abortAt := none, supportsVision := true }
        { sessionId := "s1", prompt := "p", providerId := "anthropic",
          modelId := "m", projectDir := "/proj", images := none,
          mode := Mode.plan }).1.getLast? = some (AgentEvent.done d) ∧
        AgentEvent.mode_switch "agent"
            (getPlanPath "/home/u" "/proj" "s1")
            (planExitContentOf ((fun p =>
              if p = getPlanPath "/home/u" "/proj" "s1" then some "# Plan A"
              else none) (getPlanPath "/home/u" "/proj" "s1")))
          ∈ (runAgent
            { providers := (fun pid =>
                if pid = "anthropic" then some ⟨"sk"⟩ else none),
              db := [],
              fs := (fun p =>
                if p = getPlanPath "/home/u" "/proj" "s1" then some "# Plan A"
                else none),
              home := "/home/u",
              parts := [StreamPart.toolResult "plan_exit"
                (planExitExecute (fun p =>
                  if p = getPlanPath "/home/u" "/proj" "s1" then
                    some "# Plan A"
                  else none) (getPlanPath "/home/u" "/proj" "s1"))],
              streamExc := none, abortAt := none, supportsVision := true }
            { sessionId := "s1", prompt := "p", providerId := "anthropic",
              modelId := "m", projectDir := "/proj", images := none,
              mode := Mode.plan }).1.dropLast :=
  ⟨(c3_plan_exit_handoff _ _ (by decide) (by rfl) 0 (by rfl) (by decide)
      (by rfl)).1,
   (c3_plan_exit_handoff _ _ (by decide) (by rfl) 0 (by rfl) (by decide)
      (by rfl)).2 (by decide)⟩

/-- Claim C3, counterexample: with the plan file present but empty, a
successful `plan_exit` emits a `mode_switch` whose `planContent` is the
placeholder "(no plan file written)", not the plan file's (empty) current
text. -/
theorem c3_counterexample :
    ((fun p => if p = getPlanPath "/home/u" "/proj" "s1" then some ""
        else none) (getPlanPath "/home/u" "/proj" "s1") = some "") ∧
      (runAgent
        { providers := (fun pid =>
            if pid = "anthropic" then some ⟨"sk"⟩ else none),
          db := [],
          fs := (fun p =>
            if p = getPlanPath "/home/u" "/proj" "s1" then some ""
            else none),
          home := "/home/u",
          parts := [StreamPart.toolResult "plan_exit"
            (planExitExecute (fun p =>
              if p = getPlanPath "/home/u" "/proj" "s1" then some ""
              else none) (getPlanPath "/home/u" "/proj" "s1"))],
          streamExc := none, abortAt := none, supportsVision := true }
        { sessionId := "s1", prompt := "p", providerId := "anthropic",
          modelId := "m", projectDir := "/proj", images := none,
          mode := Mode.plan }).1 =
        [AgentEvent.tool_result "plan_exit"
          (ToolOutputVal.modeSwitchJson "agent"
            "/home/u/.coodeen/plans/s1.md" "(no plan file written)"),
         AgentEvent.mode_switch "agent" "/home/u/.coodeen/plans/s1.md"
           "(no plan file written)",
         AgentEvent.done ""] ∧
      ("(no plan file written)" : String) ≠ "" := by
  refine ⟨by decide, by decide, by decide⟩
